import Mathlib

/-
Verification of the MetaGPT UI real-time event pipeline.

Shallow embedding of three components:
- the State Projector (the `AgentNetwork` component's socket-event handlers
  and bootstrap fetch),
- the Event Channel (the `SocketService` class in `services/socket.ts`),
- the Layout Projector (`calculatePositions` / `renderConnections` in
  `AgentVisualization.tsx`).

Pure functions become Lean functions; the React `setX(prev => ...)` updaters
become explicit state-passing folds; fallible fetches become an explicit
outcome type.
-/

namespace MetaGptUi

/-! ### Data model (socket.ts interfaces) -/

/-- Agent status, from the `AgentStatus` enum in socket.ts. -/
inductive AgentStatus where
  | idle
  | thinking
  | speaking
  | listening
deriving DecidableEq

/-- Message kind, from the union type of `AgentMessage.type` in socket.ts. -/
inductive MessageType where
  | thinking
  | message
  | system
  | error
deriving DecidableEq

/-- The `Agent` interface of socket.ts. -/
structure Agent where
  id : String
  name : String
  role : String
  status : AgentStatus
  color : String
  llm_type : Option String := none
  last_updated : Option Nat := none
deriving DecidableEq

/-- The `AgentMessage` interface of socket.ts. -/
structure AgentMessage where
  id : String
  agent_id : String
  content : String
  timestamp : Nat
  type : MessageType
deriving DecidableEq

/-- The `AgentHandover` interface of socket.ts. -/
structure AgentHandover where
  «from» : String
  «to» : String
  message : Option String := none
  timestamp : Nat
deriving DecidableEq

/-! ### State Projector (the `AgentNetwork` component) -/

/-- The snapshot held by `AgentNetwork`: the `agents`, `connections`,
`activeAgent` and `messages` pieces of React state. -/
structure NetworkState where
  agents : List Agent
  connections : List AgentHandover
  activeAgent : Option String
  messages : List AgentMessage
deriving DecidableEq

/-- The initial values of the four `useState` hooks in `AgentNetwork`. -/
def initialNetworkState : NetworkState :=
  { agents := [], connections := [], activeAgent := none, messages := [] }

/-- The `AGENT_UPDATE` handler's updater:
`prev.findIndex(a => a.id === data.id)`, then replace at that index,
else append. -/
def applyAgentUpdate (prev : List Agent) (data : Agent) : List Agent :=
  match prev.findIdx? (fun a => a.id == data.id) with
  | some i => prev.set i data
  | none => prev ++ [data]

/-- The four agent-level socket events that `AgentNetwork` folds into its
snapshot. -/
inductive NetEvent where
  | agentUpdate (data : Agent)
  | agentMessage (data : AgentMessage)
  | agentThinking (data : AgentMessage)
  | agentHandover (data : AgentHandover)
deriving DecidableEq

/-- One step of the `AgentNetwork` event fold: the bodies of the
`AGENT_UPDATE`, `AGENT_MESSAGE`, `AGENT_THINKING` and `AGENT_HANDOVER`
handlers. -/
def applyEvent (s : NetworkState) : NetEvent → NetworkState
  | NetEvent.agentUpdate data =>
      { s with agents := applyAgentUpdate s.agents data }
  | NetEvent.agentMessage data =>
      { s with messages := s.messages ++ [data], activeAgent := some data.agent_id }
  | NetEvent.agentThinking data =>
      { s with messages := s.messages ++ [data], activeAgent := some data.agent_id }
  | NetEvent.agentHandover data =>
      { s with connections := s.connections ++ [data], activeAgent := some data.«to» }

/-- Run a whole delivered event sequence from the initial snapshot. -/
def runEvents (events : List NetEvent) : NetworkState :=
  events.foldl applyEvent initialNetworkState

/-- The payload of the last agent-update event carrying id `i`, if any. -/
def lastUpdateFor (events : List Agent) (i : String) : Option Agent :=
  (events.filter (fun e => e.id == i)).getLast?

/-- Recursive form of the upsert performed by the `AGENT_UPDATE` handler:
replace the first record with a matching id, else append. -/
def upsertRec : List Agent → Agent → List Agent
  | [], d => [d]
  | a :: rest, d => if a.id = d.id then d :: rest else a :: upsertRec rest d

lemma applyAgentUpdate_eq_upsertRec (l : List Agent) (d : Agent) :
    applyAgentUpdate l d = upsertRec l d := by
  induction l with
  | nil => rfl
  | cons a rest ih =>
    unfold applyAgentUpdate upsertRec
    rw [List.findIdx?_cons, List.findIdx?_succ]
    by_cases h : a.id = d.id
    · simp [h]
    · cases hr : rest.findIdx? (fun x => x.id == d.id) with
      | none => simp [h, hr, ← ih, applyAgentUpdate]
      | some j => simp [h, hr, ← ih, applyAgentUpdate]

lemma mem_map_id_upsertRec {x : String} {l : List Agent} {d : Agent}
    (h : x ∈ (upsertRec l d).map Agent.id) : x ∈ l.map Agent.id ∨ x = d.id := by
  induction l with
  | nil =>
    rw [upsertRec, List.map_singleton] at h
    exact Or.inr (List.mem_singleton.mp h)
  | cons a rest ih =>
    by_cases had : a.id = d.id
    · rw [upsertRec, if_pos had, List.map_cons] at h
      rcases List.mem_cons.mp h with h | h
      · exact Or.inr h
      · exact Or.inl (List.mem_cons_of_mem _ h)
    · rw [upsertRec, if_neg had, List.map_cons] at h
      rcases List.mem_cons.mp h with h | h
      · exact Or.inl (h ▸ List.mem_cons_self _ _)
      · rcases ih h with h' | h'
        · exact Or.inl (List.mem_cons_of_mem _ h')
        · exact Or.inr h'

lemma nodup_map_id_upsertRec {l : List Agent} {d : Agent}
    (h : (l.map Agent.id).Nodup) : ((upsertRec l d).map Agent.id).Nodup := by
  induction l with
  | nil => simp [upsertRec]
  | cons a rest ih =>
    rw [List.map_cons, List.nodup_cons] at h
    by_cases had : a.id = d.id
    · simp only [upsertRec, had, if_pos, List.map_cons, List.nodup_cons]
      exact ⟨had ▸ h.1, h.2⟩
    · simp only [upsertRec, had, if_neg, not_false_iff, List.map_cons, List.nodup_cons]
      refine ⟨fun hmem => ?_, ih h.2⟩
      rcases mem_map_id_upsertRec hmem with h' | h'
      · exact h.1 h'
      · exact had h'

lemma find?_upsertRec_self (l : List Agent) (d : Agent) :
    (upsertRec l d).find? (fun a => a.id == d.id) = some d := by
  induction l with
  | nil => simp [upsertRec]
  | cons a rest ih =>
    by_cases had : a.id = d.id
    · simp [upsertRec, had]
    · simp [upsertRec, had, ih]

lemma find?_upsertRec_other {i : String} (l : List Agent) (d : Agent)
    (hne : d.id ≠ i) :
    (upsertRec l d).find? (fun a => a.id == i) = l.find? (fun a => a.id == i) := by
  induction l with
  | nil => simp [upsertRec, hne]
  | cons a rest ih =>
    by_cases had : a.id = d.id
    · have : a.id ≠ i := had ▸ hne
      simp [upsertRec, had, this, hne]
    · by_cases hai : a.id = i
      · simp [upsertRec, had, hai, Ne.symm hne]
      · simp [upsertRec, had, hai, Ne.symm hne, ih]

lemma getLast?_cons_or (x : α) (xs : List α) :
    (x :: xs).getLast? = xs.getLast?.or (some x) := by
  cases xs <;> simp [List.getLast?]

lemma lastUpdateFor_cons (e : Agent) (rest : List Agent) (i : String) :
    lastUpdateFor (e :: rest) i =
      if e.id = i then (lastUpdateFor rest i).or (some e) else lastUpdateFor rest i := by
  unfold lastUpdateFor
  by_cases h : e.id = i
  · simp [h, List.filter_cons, getLast?_cons_or]
  · simp [h, List.filter_cons]

lemma foldl_applyAgentUpdate_find? (events : List Agent) (acc : List Agent)
    (i : String) :
    (events.foldl applyAgentUpdate acc).find? (fun a => a.id == i) =
      (lastUpdateFor events i).or (acc.find? (fun a => a.id == i)) := by
  induction events generalizing acc with
  | nil => simp [lastUpdateFor]
  | cons e rest ih =>
    rw [List.foldl_cons, ih, lastUpdateFor_cons, applyAgentUpdate_eq_upsertRec]
    by_cases h : e.id = i
    · rw [if_pos h, Option.or_assoc]
      have : (upsertRec acc e).find? (fun a => a.id == i) = some e := by
        rw [show i = e.id from h.symm]
        exact find?_upsertRec_self acc e
      rw [this]
      rfl
    · rw [if_neg h, find?_upsertRec_other acc e h]

lemma foldl_applyAgentUpdate_nodup (events : List Agent) (acc : List Agent)
    (h : (acc.map Agent.id).Nodup) :
    ((events.foldl applyAgentUpdate acc).map Agent.id).Nodup := by
  induction events generalizing acc with
  | nil => exact h
  | cons e rest ih =>
    rw [List.foldl_cons, applyAgentUpdate_eq_upsertRec]
    exact ih _ (nodup_map_id_upsertRec h)

lemma runEvents_map_agentUpdate (events : List Agent) :
    (runEvents (events.map NetEvent.agentUpdate)).agents =
      events.foldl applyAgentUpdate [] := by
  have key : ∀ (evs : List Agent) (s : NetworkState),
      ((evs.map NetEvent.agentUpdate).foldl applyEvent s).agents =
        evs.foldl applyAgentUpdate s.agents := by
    intro evs
    induction evs with
    | nil => intro s; rfl
    | cons e rest ih => intro s; simp [applyEvent, ih]
  exact key events initialNetworkState

/-- C1: folding any sequence of agent-update events from the empty agent set
yields an agent list whose ids are pairwise distinct (exactly one record per
distinct id), and the record found for an id is exactly the full payload of
the last update event carrying that id (whole-record replacement on an
existing id, append on a new id, no per-field merge); this fold is precisely
what the projector's `AGENT_UPDATE` handler performs. -/
theorem agent_update_upsert_wins_last (events : List Agent) (i : String) :
    ((events.foldl applyAgentUpdate []).map Agent.id).Nodup ∧
    (events.foldl applyAgentUpdate []).find? (fun a => a.id == i) =
      lastUpdateFor events i ∧
    (runEvents (events.map NetEvent.agentUpdate)).agents =
      events.foldl applyAgentUpdate [] := by
  refine ⟨foldl_applyAgentUpdate_nodup events [] (by simp), ?_,
    runEvents_map_agentUpdate events⟩
  rw [foldl_applyAgentUpdate_find?]
  simp

/-- The message payloads of an event sequence, in arrival order: both the
`AGENT_MESSAGE` and the `AGENT_THINKING` handlers append to `messages`. -/
def messageEventsOf : List NetEvent → List AgentMessage
  | [] => []
  | NetEvent.agentMessage m :: es => m :: messageEventsOf es
  | NetEvent.agentThinking m :: es => m :: messageEventsOf es
  | NetEvent.agentUpdate _ :: es => messageEventsOf es
  | NetEvent.agentHandover _ :: es => messageEventsOf es

/-- The handover payloads of an event sequence, in arrival order. -/
def handoverEventsOf : List NetEvent → List AgentHandover
  | [] => []
  | NetEvent.agentHandover h :: es => h :: handoverEventsOf es
  | NetEvent.agentUpdate _ :: es => handoverEventsOf es
  | NetEvent.agentMessage _ :: es => handoverEventsOf es
  | NetEvent.agentThinking _ :: es => handoverEventsOf es

lemma foldl_applyEvent_messages (events : List NetEvent) (s : NetworkState) :
    (events.foldl applyEvent s).messages = s.messages ++ messageEventsOf events := by
  induction events generalizing s with
  | nil => simp [messageEventsOf]
  | cons e rest ih =>
    cases e <;> simp [applyEvent, messageEventsOf, ih]

lemma foldl_applyEvent_connections (events : List NetEvent) (s : NetworkState) :
    (events.foldl applyEvent s).connections =
      s.connections ++ handoverEventsOf events := by
  induction events generalizing s with
  | nil => simp [handoverEventsOf]
  | cons e rest ih =>
    cases e <;> simp [applyEvent, handoverEventsOf, ih]

/-- C2: for every delivered event sequence, the message log is exactly the
message/thinking payloads in arrival order and the handover log is exactly
the handover payloads in arrival order — lengths equal the number of events
of each kind, no reordering, no deduplication (equal payloads stay as
separate entries), and a handover is appended regardless of whether its
from/to ids name any known agent. -/
theorem append_only_logs_in_arrival_order (events : List NetEvent) :
    (runEvents events).messages = messageEventsOf events ∧
    (runEvents events).connections = handoverEventsOf events ∧
    (runEvents events).messages.length = (messageEventsOf events).length ∧
    (runEvents events).connections.length = (handoverEventsOf events).length := by
  have hm : (runEvents events).messages = messageEventsOf events := by
    rw [runEvents, foldl_applyEvent_messages]
    simp [initialNetworkState]
  have hc : (runEvents events).connections = handoverEventsOf events := by
    rw [runEvents, foldl_applyEvent_connections]
    simp [initialNetworkState]
  exact ⟨hm, hc, by rw [hm], by rw [hc]⟩

/-- C9: a message event (and likewise a thinking event) sets the Active
Agent Pointer to the message's owning agent id, and a handover event sets it
to the handover's destination id; the previous pointer value `s.activeAgent`
is overwritten unconditionally, never combined. -/
theorem active_pointer_overwritten (s : NetworkState) (m : AgentMessage)
    (h : AgentHandover) :
    (applyEvent s (NetEvent.agentMessage m)).activeAgent = some m.agent_id ∧
    (applyEvent s (NetEvent.agentThinking m)).activeAgent = some m.agent_id ∧
    (applyEvent s (NetEvent.agentHandover h)).activeAgent = some h.«to» :=
  ⟨rfl, rfl, rfl⟩

/-! ### Bootstrap fetch (the `fetchData` closure in `AgentNetwork`) -/

/-- Outcome of one bootstrap query: the fetch-and-parse either throws
(`err`) or yields a parsed body whose relevant field is present (`ok (some
xs)`) or absent/falsy (`ok none`). -/
inductive FetchOutcome (α : Type) where
  | ok (value : Option α)
  | err
deriving DecidableEq

/-- The `fetchData` closure: the three queries run sequentially inside a
single try block; each successful query with a present field immediately
replaces the corresponding piece of state; the first throwing query jumps to
the catch, which only logs — state mutated so far is kept. -/
def fetchData (s : NetworkState) (agentsRes : FetchOutcome (List Agent))
    (messagesRes : FetchOutcome (List AgentMessage))
    (handoversRes : FetchOutcome (List AgentHandover)) : NetworkState :=
  match agentsRes with
  | FetchOutcome.err => s
  | FetchOutcome.ok a =>
    let s1 := match a with
      | some ags => { s with agents := ags }
      | none => s
    match messagesRes with
    | FetchOutcome.err => s1
    | FetchOutcome.ok m =>
      let s2 := match m with
        | some ms => { s1 with messages := ms }
        | none => s1
      match handoversRes with
      | FetchOutcome.err => s2
      | FetchOutcome.ok hv =>
        match hv with
        | some hs => { s2 with connections := hs }
        | none => s2

/-- C8 counterexample: starting from the empty snapshot, if the agents query
succeeds (returning one agent) and the messages query then throws, the
resulting snapshot's agent set differs from its pre-bootstrap state — the
failure is non-fatal, but the snapshot is NOT left unchanged from before the
bootstrap began. -/
theorem bootstrap_failure_mutates_snapshot :
    (fetchData initialNetworkState
        (FetchOutcome.ok (some [{ id := "A", name := "Alice", role := "pm",
                                  status := AgentStatus.idle, color := "#fff" }]))
        FetchOutcome.err FetchOutcome.err).agents ≠
      initialNetworkState.agents := by
  decide

/-- C8 amended: a failing bootstrap query is non-fatal (the catch returns a
snapshot, nothing propagates) and the parts of the snapshot not yet replaced
when the failing query runs keep their pre-bootstrap values: if the agents
query errors the snapshot is fully unchanged; if the messages query errors
the message and handover logs are unchanged; if the handovers query errors
the handover log is unchanged; the active pointer is never touched. Parts
already replaced by earlier successful queries keep the fetched values. -/
theorem bootstrap_failure_nonfatal (s : NetworkState)
    (m : FetchOutcome (List AgentMessage)) (hv : FetchOutcome (List AgentHandover))
    (a : Option (List Agent)) (ms : Option (List AgentMessage)) :
    fetchData s FetchOutcome.err m hv = s ∧
    (fetchData s (FetchOutcome.ok a) FetchOutcome.err hv).messages = s.messages ∧
    (fetchData s (FetchOutcome.ok a) FetchOutcome.err hv).connections = s.connections ∧
    (fetchData s (FetchOutcome.ok a) FetchOutcome.err hv).activeAgent = s.activeAgent ∧
    (fetchData s (FetchOutcome.ok a) (FetchOutcome.ok ms) FetchOutcome.err).connections =
      s.connections ∧
    (fetchData s (FetchOutcome.ok a) (FetchOutcome.ok ms) FetchOutcome.err).activeAgent =
      s.activeAgent := by
  cases a <;> cases ms <;> simp [fetchData]

/-- C10: when all three bootstrap queries succeed with their fields present,
the fetched agents, message history and handover history replace the
corresponding parts of the snapshot wholesale — whatever the snapshot held
before (including state applied from live events since connection) is
discarded, not merged; only the active pointer is carried over. -/
theorem bootstrap_success_replaces_wholesale (s : NetworkState)
    (ags : List Agent) (ms : List AgentMessage) (hs : List AgentHandover) :
    fetchData s (FetchOutcome.ok (some ags)) (FetchOutcome.ok (some ms))
        (FetchOutcome.ok (some hs)) =
      { s with agents := ags, messages := ms, connections := hs } :=
  rfl

/-! ### Event Channel (the `SocketService` class in services/socket.ts) -/

/-- The `SocketEvent` enum of socket.ts. -/
inductive SocketEvent where
  | connect
  | disconnect
  | connectError
  | agentUpdate
  | agentMessage
  | agentThinking
  | agentHandover
  | executionStarted
  | executionCompleted
  | executionError
  | systemMessage
deriving DecidableEq

/-- `maxReconnectAttempts = 5` in socket.ts. -/
def maxReconnectAttempts : Nat := 5

/-- Observable state of a `SocketService` instance: whether `this.socket` is
non-null, the `connected` flag, the `reconnectAttempts` counter, how many
times `io(...)` was invoked (connection attempts started), the registered
listeners (handler ids keyed by event kind), and the events surfaced to
subscribers via `notifyListeners` so far. -/
structure ChannelState where
  socketExists : Bool
  connected : Bool
  reconnectAttempts : Nat
  ioCalls : Nat
  listeners : List (SocketEvent × Nat)
  notifications : List SocketEvent
deriving DecidableEq

/-- A freshly constructed `SocketService`. -/
def initialChannelState : ChannelState :=
  { socketExists := false, connected := false, reconnectAttempts := 0,
    ioCalls := 0, listeners := [], notifications := [] }

/-- `connect()`: `if (this.socket) return;` — otherwise create the socket
via `io(...)` (one connection attempt) and register the transport
handlers. `this.listeners` is untouched. -/
def connectOp (s : ChannelState) : ChannelState :=
  if s.socketExists then s
  else { s with socketExists := true, ioCalls := s.ioCalls + 1 }

/-- `disconnect()`: if a socket exists, tear it down, null the handle and
clear the connected flag; safe to call when already disconnected. -/
def disconnectOp (s : ChannelState) : ChannelState :=
  if s.socketExists then { s with socketExists := false, connected := false }
  else s

/-- The transport `connect` handler: set `connected`, reset the attempt
counter, notify subscribers. -/
def onConnectSuccess (s : ChannelState) : ChannelState :=
  { s with connected := true, reconnectAttempts := 0,
           notifications := s.notifications ++ [SocketEvent.connect] }

/-- The transport `connect_error` handler: notify subscribers of the
connect-error, increment `reconnectAttempts`, and once the counter exceeds
`maxReconnectAttempts` force a full `disconnect()`. -/
def onConnectError (s : ChannelState) : ChannelState :=
  let t := { s with
    notifications := s.notifications ++ [SocketEvent.connectError],
    reconnectAttempts := s.reconnectAttempts + 1 }
  if t.reconnectAttempts > maxReconnectAttempts then disconnectOp t else t

/-- Apply `n` consecutive connect-error events. -/
def applyConnectErrors : Nat → ChannelState → ChannelState
  | 0, s => s
  | n + 1, s => applyConnectErrors n (onConnectError s)

/-- C5 counterexample: with the maximum attempt count 5, after five
consecutive connect-errors from a fresh `connect()` the channel still holds
a live socket (state {connecting}, not {disconnected} — the handler only
gives up once the counter EXCEEDS the maximum, i.e. on the sixth error),
and subscribers have been surfaced five connect-error notifications, not
one terminal exhaustion notification. -/
theorem five_connect_errors_not_disconnected :
    (applyConnectErrors 5 (connectOp initialChannelState)).socketExists = true ∧
    (applyConnectErrors 5 (connectOp initialChannelState)).notifications =
      List.replicate 5 SocketEvent.connectError := by
  decide

/-- C5 amended: it takes SIX consecutive connect-errors (the first to make
the counter exceed the maximum of 5) for the channel to force a full
disconnect and stop retrying; each connect-error surfaces exactly one
connect-error notification to subscribers (six in total after six errors) —
there is no separate single terminal exhaustion notification, and after five
errors the channel has not yet given up. -/
theorem six_connect_errors_disconnect :
    (applyConnectErrors 6 (connectOp initialChannelState)).socketExists = false ∧
    (applyConnectErrors 6 (connectOp initialChannelState)).connected = false ∧
    (applyConnectErrors 6 (connectOp initialChannelState)).notifications =
      List.replicate 6 SocketEvent.connectError ∧
    (applyConnectErrors 5 (connectOp initialChannelState)).socketExists = true := by
  decide

/-- C6: while a socket already exists (the channel is connecting or
connected), `connect()` is a no-op — the whole state is unchanged, so in
particular no second `io(...)` connection attempt is started and the attempt
counter and registered listeners are untouched. -/
theorem connect_idempotent (s : ChannelState) (h : s.socketExists = true) :
    connectOp s = s ∧
    (connectOp s).ioCalls = s.ioCalls ∧
    (connectOp s).reconnectAttempts = s.reconnectAttempts ∧
    (connectOp s).listeners = s.listeners := by
  have hs : connectOp s = s := by simp [connectOp, h]
  exact ⟨hs, by rw [hs], by rw [hs], by rw [hs]⟩

/-- Witness for C6 at a concrete state: after one `connect()` on a fresh
service a socket exists, and a second `connect()` changes nothing. -/
theorem connect_idempotent_witness :
    (connectOp initialChannelState).socketExists = true ∧
    connectOp (connectOp initialChannelState) = connectOp initialChannelState :=
  ⟨by decide, (connect_idempotent (connectOp initialChannelState) (by decide)).1⟩

/-- `notifyListeners`: run every registered callback for the event in order;
a callback is modelled as returning `Except.error e` when it throws. The
`try/catch` around each call turns a throw into a logged entry (`some e`)
for that handler alone and continues with the remaining handlers; nothing
escapes the loop. -/
def notifyListeners {α : Type} :
    List (α → Except String Unit) → α → List (Option String)
  | [], _ => []
  | cb :: rest, data =>
    (match cb data with
     | Except.ok _ => none
     | Except.error e => some e) :: notifyListeners rest data

/-- C7: delivering an event invokes every registered handler: the delivery
produces one outcome per handler (same length, every index defined), and the
outcome at index `i` is exactly handler `i`'s own result on the payload — a
throwing handler is caught and recorded per-handler (`some e`) without
preventing any sibling handler from contributing its own outcome, and the
delivery routine itself returns a plain list, propagating no exception. -/
theorem handler_errors_isolated {α : Type}
    (handlers : List (α → Except String Unit)) (data : α) :
    (notifyListeners handlers data).length = handlers.length ∧
    ∀ i : Nat, (notifyListeners handlers data)[i]? =
      (handlers[i]?).map (fun cb =>
        match cb data with
        | Except.ok _ => none
        | Except.error e => some e) := by
  induction handlers with
  | nil => exact ⟨rfl, fun i => by simp [notifyListeners]⟩
  | cons cb rest ih =>
    refine ⟨by simp [notifyListeners, ih.1], fun i => ?_⟩
    cases i with
    | zero => simp [notifyListeners]
    | succ j => simp [notifyListeners, ih.2 j]

/-! ### Layout Projector (AgentVisualization.tsx) -/

/-- `calculatePositions`: given the viewport, place agent `i` (in list
order) at angle `(i / N) * 2 * π` on a circle of radius
`min(width, height) * 0.35` centred at `(width/2, height/2)`; the result is
the `positions` record keyed by agent id (a later assignment to the same id
overwrites an earlier one, as in a JS record). -/
noncomputable def calculatePositions (agents : List Agent) (width height : ℝ) :
    String → Option (ℝ × ℝ) :=
  let centerX := width / 2
  let centerY := height / 2
  let radius := min width height * 0.35
  agents.enum.foldl
    (fun positions ia =>
      let angle := ((ia.1 : ℝ) / (agents.length : ℝ)) * 2 * Real.pi
      fun pid =>
        if pid = ia.2.id then
          some (centerX + radius * Real.cos angle, centerY + radius * Real.sin angle)
        else positions pid)
    (fun _ => none)

lemma foldl_assign_of_not_mem {β : Type} (g : Nat × Agent → β)
    (ps : List (Nat × Agent)) (acc : String → Option β) (x : String)
    (hx : ∀ ia ∈ ps, ia.2.id ≠ x) :
    (ps.foldl (fun m q => fun pid => if pid = q.2.id then some (g q) else m pid)
        acc) x = acc x := by
  induction ps generalizing acc with
  | nil => rfl
  | cons q rest ih =>
    rw [List.foldl_cons, ih _ (fun b hb => hx b (List.mem_cons_of_mem _ hb))]
    have hne : x ≠ q.2.id := fun he => hx q (List.mem_cons_self _ _) he.symm
    simp [hne]

lemma foldl_assign_of_mem {β : Type} (g : Nat × Agent → β)
    (ps : List (Nat × Agent)) :
    ∀ (acc : String → Option β) (ia : Nat × Agent), ia ∈ ps →
      ((ps.map (fun q => q.2.id)).Nodup) →
      (ps.foldl (fun m q => fun pid => if pid = q.2.id then some (g q) else m pid)
          acc) ia.2.id = some (g ia) := by
  induction ps with
  | nil =>
    intro acc ia hmem _
    cases hmem
  | cons q rest ih =>
    intro acc ia hmem hnd
    rw [List.map_cons, List.nodup_cons] at hnd
    rw [List.foldl_cons]
    rcases List.mem_cons.mp hmem with heq | hmem2
    · subst heq
      have hx : ∀ b ∈ rest, b.2.id ≠ ia.2.id := by
        intro b hb he
        exact hnd.1 (he ▸ List.mem_map_of_mem (fun p => p.2.id) hb)
      rw [foldl_assign_of_not_mem g rest _ _ hx]
      simp
    · exact ih _ ia hmem2 hnd.2

lemma enum_map_id_nodup {agents : List Agent}
    (hnd : (agents.map Agent.id).Nodup) :
    (agents.enum.map (fun q => q.2.id)).Nodup := by
  have heq : agents.enum.map (fun q => q.2.id) =
      (agents.enum.map Prod.snd).map Agent.id := by
    rw [List.map_map]
    rfl
  rw [heq, List.enum_map_snd]
  exact hnd

lemma mem_enum_of_get (agents : List Agent) (i : Nat) (hi : i < agents.length) :
    (i, agents.get ⟨i, hi⟩) ∈ agents.enum := by
  have h2 : i < agents.enum.length := by simp [hi]
  have hg := List.getElem_enum agents i h2
  have hm : agents.enum[i] ∈ agents.enum := List.getElem_mem h2
  rw [hg] at hm
  simpa using hm

/-- C3: for a list of agents with pairwise-distinct ids (the invariant the
State Projector maintains) and any viewport W × H, the position map sends
the id of the agent at index `i` to
`(W/2 + 0.35·min(W,H)·cos θ_i, H/2 + 0.35·min(W,H)·sin θ_i)` with
`θ_i = (i / N) · 2π`; for `N = 3` and viewport 600 × 400 this puts the three
agents at angles 0, 2π/3, 4π/3 around centre (300, 200) with radius 140
(see the witness); and for an empty agent list the position map is empty
(no id is mapped), without error. -/
theorem positions_on_circle (agents : List Agent) (W H : ℝ)
    (hnd : (agents.map Agent.id).Nodup) (i : Nat) (hi : i < agents.length) :
    calculatePositions agents W H ((agents.get ⟨i, hi⟩).id) =
      some (W / 2 + min W H * 0.35 *
              Real.cos (((i : ℝ) / (agents.length : ℝ)) * 2 * Real.pi),
            H / 2 + min W H * 0.35 *
              Real.sin (((i : ℝ) / (agents.length : ℝ)) * 2 * Real.pi)) ∧
    calculatePositions [] W H = fun _ => none := by
  constructor
  · have key := foldl_assign_of_mem
      (fun ia => (W / 2 + min W H * 0.35 *
                    Real.cos (((ia.1 : ℝ) / (agents.length : ℝ)) * 2 * Real.pi),
                  H / 2 + min W H * 0.35 *
                    Real.sin (((ia.1 : ℝ) / (agents.length : ℝ)) * 2 * Real.pi)))
      agents.enum (fun _ => none) (i, agents.get ⟨i, hi⟩)
      (mem_enum_of_get agents i hi) (enum_map_id_nodup hnd)
    exact key
  · rfl

/-- A concrete agent list with three distinct ids, used only to witness
C3's scenario (N = 3, viewport 600 × 400). -/
def sampleAgents : List Agent :=
  [{ id := "A", name := "Alpha", role := "pm",
     status := AgentStatus.idle, color := "#f00" },
   { id := "B", name := "Beta", role := "arch",
     status := AgentStatus.idle, color := "#0f0" },
   { id := "C", name := "Gamma", role := "eng",
     status := AgentStatus.idle, color := "#00f" }]

/-- Witness for C3: three agents, viewport 600 × 400; agent "B" at index 1
sits at angle (1/3)·2π = 2π/3 around centre (300, 200) with radius
`min 600 400 · 0.35 = 140`. -/
theorem positions_on_circle_witness :
    (sampleAgents.map Agent.id).Nodup ∧
    calculatePositions sampleAgents 600 400 ((sampleAgents.get ⟨1, by decide⟩).id) =
      some (600 / 2 + min (600 : ℝ) 400 * 0.35 *
              Real.cos ((((1 : Nat) : ℝ) / ((sampleAgents.length : ℝ))) * 2 * Real.pi),
            400 / 2 + min (600 : ℝ) 400 * 0.35 *
              Real.sin ((((1 : Nat) : ℝ) / ((sampleAgents.length : ℝ))) * 2 * Real.pi)) :=
  ⟨by decide, (positions_on_circle sampleAgents 600 400 (by decide) 1 (by decide)).1⟩

/-- The geometry computed for one rendered connection in
`renderConnections`: endpoints, quadratic control point (the straight-line
midpoint offset by 0.3 of the displacement's perpendicular) and the label
anchor (0.7 of the way from the midpoint toward the control point). -/
structure Connector where
  fromPos : ℝ × ℝ
  toPos : ℝ × ℝ
  control : ℝ × ℝ
  textPos : ℝ × ℝ

/-- One iteration of the `connections.map` loop in `renderConnections`:
look both endpoints up in the position map; if either is missing return
null (`none`), otherwise compute the curve geometry. -/
noncomputable def renderConnection (positions : String → Option (ℝ × ℝ))
    (connection : AgentHandover) : Option Connector :=
  match positions connection.«from», positions connection.«to» with
  | some fromPos, some toPos =>
    let midX := (fromPos.1 + toPos.1) / 2
    let midY := (fromPos.2 + toPos.2) / 2
    let dx := toPos.1 - fromPos.1
    let dy := toPos.2 - fromPos.2
    let normalX := -dy * 0.3
    let normalY := dx * 0.3
    some { fromPos := fromPos, toPos := toPos,
           control := (midX + normalX, midY + normalY),
           textPos := (midX + normalX * 0.7, midY + normalY * 0.7) }
  | _, _ => none

/-- `renderConnections`: map the connection loop over the handover list;
omitted connectors stay as `none` entries (React renders null as nothing). -/
noncomputable def renderConnections (positions : String → Option (ℝ × ℝ))
    (connections : List AgentHandover) : List (Option Connector) :=
  connections.map (renderConnection positions)

/-- C4: connector derivation is total and never fails: a handover either of
whose endpoint ids is absent from the position map yields no connector
(`none` — omitted, not an error), an empty handover list yields an empty
connector list, and every handover is processed (one output entry per
input, so nothing aborts the derivation). -/
theorem connector_omitted_when_missing (positions : String → Option (ℝ × ℝ))
    (connections : List AgentHandover) :
    (∀ c ∈ connections,
        (positions c.«from» = none ∨ positions c.«to» = none) →
        renderConnection positions c = none) ∧
    renderConnections positions [] = [] ∧
    (renderConnections positions connections).length = connections.length := by
  refine ⟨fun c _ h => ?_, rfl, by simp [renderConnections]⟩
  cases hf : positions c.«from» with
  | none => cases ht : positions c.«to» <;> simp [renderConnection, hf, ht]
  | some pf =>
    cases ht : positions c.«to» with
    | none => simp [renderConnection, hf, ht]
    | some pt =>
      rcases h with h | h
      · rw [hf] at h; cases h
      · rw [ht] at h; cases h

/-- Witness for C4: with an empty position map a handover between unknown
ids "A" and "B" yields no connector, and an empty handover list yields no
connectors. -/
theorem connector_omitted_when_missing_witness :
    renderConnection (fun _ => none)
        { «from» := "A", «to» := "B", timestamp := 0 } = none ∧
    renderConnections (fun _ => none) [] = [] :=
  ⟨(connector_omitted_when_missing (fun _ => none)
        [{ «from» := "A", «to» := "B", timestamp := 0 }]).1
      { «from» := "A", «to» := "B", timestamp := 0 }
      (List.mem_singleton.mpr rfl) (Or.inl rfl),
   (connector_omitted_when_missing (fun _ => none) []).2.1⟩

end MetaGptUi
